import Mathlib

/-!
# Verification of the StoryForge local Stable Diffusion service

Shallow embedding of the inference-orchestration core of
`python-sd-service` (`app.py`, with `app_cpu.py` as the CPU variant):
prompt budgeting (`optimize_prompt_for_clip`), model lifecycle
(`load_model` with its bounded residency cache), and the two generation
operations (`generate_image`, `generate_image_from_character`) together
with the `/generate-scene` endpoint validation.

Python strings are represented as `List Char`; the Python string
operations used by the source (`str.split()`, `str.split(", ")`,
`str.strip()`, `str.lower()`, `sep.join(...)`, substring containment)
are given explicit executable models below.
-/

namespace StoryForge

/-- Python `str.isspace` on one character, as used by `str.split()` /
`str.strip()` (whitespace in the ASCII range that appears in prompts). -/
def isWs (c : Char) : Bool := c.isWhitespace

/-- Helper for splitting on a character predicate: returns the first
group (maximal run before the first separator) and the remaining groups.
Separator characters are consumed. -/
def splitP (p : Char → Bool) : List Char → List Char × List (List Char)
  | [] => ([], [])
  | c :: cs =>
    let r := splitP p cs
    if p c then ([], r.1 :: r.2) else (c :: r.1, r.2)

/-- All groups obtained by splitting at every character satisfying `p`
(groups may be empty, exactly as in `str.split(sep)` semantics). -/
def pyGroups (p : Char → Bool) (l : List Char) : List (List Char) :=
  (splitP p l).1 :: (splitP p l).2

/-- Python `s.split()` (no separator argument): split on whitespace
runs, discarding empty groups. -/
def wsSplit (s : List Char) : List (List Char) :=
  (pyGroups isWs s).filter (fun g => !g.isEmpty)

/-- `len(s.split())` — the whitespace-delimited token count the service
uses as its token estimate. -/
def wordCount (s : List Char) : Nat := (wsSplit s).length

/-- Python `s.strip()`. -/
def strip (s : List Char) : List Char :=
  ((s.dropWhile isWs).reverse.dropWhile isWs).reverse

/-- Python `s.lower()` (prompts and keywords are ASCII). -/
def lowerStr (s : List Char) : List Char := s.map Char.toLower

/-- Python `k in s` (substring containment). -/
def isSub (k : List Char) : List Char → Bool
  | [] => k.isPrefixOf ([] : List Char)
  | c :: t => k.isPrefixOf (c :: t) || isSub k t

/-- Python `sep.join(parts)`. -/
def pyJoin (sep : List Char) : List (List Char) → List Char
  | [] => []
  | [p] => p
  | p :: q :: ps => p ++ sep ++ pyJoin sep (q :: ps)

/-- Python `s.split(", ")` — split on every (non-overlapping, leftmost)
occurrence of the two-character separator `", "`, keeping empty parts. -/
def splitCS : List Char → List (List Char)
  | [] => [[]]
  | ',' :: ' ' :: rest => [] :: splitCS rest
  | c :: rest =>
    match splitCS rest with
    | [] => [[c]]
    | g :: gs => (c :: g) :: gs

/-- The separator `", "` used to re-join kept prompt segments. -/
def commaSpace : List Char := [',', ' ']

/-- `priority_keywords` from `app.py` (`optimize_prompt_for_clip`). -/
def priority_keywords : List (List Char) :=
  ["character".toList, "scene".toList, "story".toList, "adventure".toList,
   "cartoon".toList, "anime".toList, "illustration".toList,
   "high quality".toList, "detailed".toList, "clean lines".toList,
   "bright colors".toList, "friendly".toList, "storybook".toList,
   "children".toList, "whimsical".toList, "magical".toList, "fantasy".toList]

/-- `any(keyword in part.lower() for keyword in priority_keywords)` —
the classification of a (stripped) segment as a *style* segment. -/
def isStylePart (part : List Char) : Bool :=
  priority_keywords.any (fun k => isSub k (lowerStr part))

/-- `parts = prompt.split(', ')`, each part stripped (the Python loop
strips each part before classifying and storing it). -/
def promptParts (prompt : List Char) : List (List Char) :=
  (splitCS prompt).map strip

/-- The content-segment loop of `optimize_prompt_for_clip`: greedily
append content parts that fit strictly within the remaining word
budget; the first part that does not fit is word-truncated to the
remaining budget and appended if more than 3 words of budget remain,
then the loop stops (`break`). `rem` is an `Int` because the Python
`remaining_words` can go negative when the kept style parts already
exceed the budget. -/
def contentLoop : List (List Char) → Int → List (List Char) → List (List Char)
  | [], _, acc => acc
  | part :: ps, rem, acc =>
    if rem - (wordCount part : Int) > 0 then
      contentLoop ps (rem - (wordCount part : Int)) (acc ++ [part])
    else if rem > 3 then
      acc ++ [pyJoin [' '] ((wsSplit part).take rem.toNat)]
    else acc

/-- `LocalSDService.optimize_prompt_for_clip` (`app.py` lines 104–172),
the non-exceptional path (the `except` fallback is unreachable for the
pure string code modelled here). Estimates length by word count; if over
`max_tokens`, splits on `", "`, keeps the first 5 style-classified
segments verbatim, then greedily appends content segments within the
remaining word budget, joining everything with `", "`. -/
def optimize_prompt_for_clip (prompt : List Char) (max_tokens : Nat := 75) : List Char :=
  if wordCount prompt ≤ max_tokens then prompt
  else
    let parts := promptParts prompt
    let style_parts := parts.filter isStylePart
    let content_parts := parts.filter (fun p => !isStylePart p)
    let optimized0 := style_parts.take 5
    let remaining0 : Int :=
      (max_tokens : Int) - (wordCount (pyJoin [' '] optimized0) : Int)
    pyJoin commaSpace (contentLoop content_parts remaining0 optimized0)

/-- The `prompt_optimized` metadata flag of `generate_image` /
`generate_image_from_character` (`app.py` lines 284, 379):
`len(full_prompt.split()) > len(optimized_prompt.split())`. -/
def prompt_optimized_flag (full_prompt : List Char) : Bool :=
  wordCount (optimize_prompt_for_clip full_prompt 75) < wordCount full_prompt

/-! ## Data model: device, engines, style presets, service state -/

/-- `self.device`: `"cuda"` (GPU service, `app.py`) or `"cpu"`
(forced in `app_cpu.py`, or GPU service without CUDA). -/
inductive Device
  | cuda
  | cpu
deriving DecidableEq, Repr

/-- An inference-engine handle (a `StableDiffusionPipeline` object).
`birth` is the index of the constructor invocation that produced it, so
distinct constructions of the same model id are distinct handles. -/
structure Engine where
  model_id : String
  birth : Nat
deriving DecidableEq, Repr

/-- One entry of `self.style_configs`. Guidance scales are the exact
decimal values of the source, as rationals. -/
structure StyleConfig where
  model_id : String
  positive_prompt : String
  negative_prompt : String
  steps : Nat
  guidance_scale : ℚ
  width : Nat
  height : Nat
deriving DecidableEq, Repr

/-- The `"cartoon"` preset (`app.py` lines 63–71). -/
def cartoonConfig : StyleConfig :=
  { model_id := "stabilityai/stable-diffusion-xl-base-1.0"
    positive_prompt := "cartoon style, clean lines, bright colors, comic book art, illustration, animated style"
    negative_prompt := "realistic, photograph, photorealistic, blurry, low quality, distorted, nsfw, dark, scary"
    steps := 20, guidance_scale := 7, width := 512, height := 512 }

/-- The `"anime"` preset (`app.py` lines 72–80). -/
def animeConfig : StyleConfig :=
  { model_id := "stabilityai/stable-diffusion-xl-base-1.0"
    positive_prompt := "anime style, cel shaded, detailed character design, manga art, japanese animation"
    negative_prompt := "realistic, photograph, 3d render, blurry, low quality, distorted, nsfw, western style"
    steps := 25, guidance_scale := 8, width := 512, height := 512 }

/-- The `"storybook"` preset (`app.py` lines 81–89). -/
def storybookConfig : StyleConfig :=
  { model_id := "stabilityai/stable-diffusion-xl-base-1.0"
    positive_prompt := "children's book illustration, watercolor style, soft colors, storybook art, whimsical, friendly"
    negative_prompt := "dark, scary, realistic, photograph, blurry, low quality, nsfw, violent"
    steps := 30, guidance_scale := 15/2, width := 512, height := 512 }

/-- The `"realistic"` preset (`app.py` lines 90–98). -/
def realisticConfig : StyleConfig :=
  { model_id := "stabilityai/stable-diffusion-xl-base-1.0"
    positive_prompt := "photorealistic, cinematic lighting, professional photography, detailed, high quality"
    negative_prompt := "cartoon, anime, artistic, painting, blurry, low quality, distorted, nsfw"
    steps := 35, guidance_scale := 6, width := 512, height := 512 }

/-- `self.style_configs` (`app.py` lines 62–99), as an association list
in source order. -/
def style_configs : List (String × StyleConfig) :=
  [("cartoon", cartoonConfig), ("anime", animeConfig),
   ("storybook", storybookConfig), ("realistic", realisticConfig)]

/-- `self.style_configs.get(style, self.style_configs["cartoon"])` —
the style lookup with silent fallback to the `"cartoon"` preset
(`app.py` line 234, `app_cpu.py` line 136). -/
def getStyleConfig (style : String) : StyleConfig :=
  (style_configs.lookup style).getD cartoonConfig

/-- The mutable state of `LocalSDService` relevant to the claims.
`constructed` is a ghost log of `StableDiffusionPipeline.from_pretrained`
invocations (the "load-count counter on a stub engine" of the spec). -/
structure SDState where
  pipeline : Option Engine
  img2img_pipeline : Option Engine
  current_model : Option String
  device : Device
  models_cache : List (String × Engine)
  constructed : List String
deriving DecidableEq, Repr

/-- The service state right after `__init__` sets its fields and before
any `load_model` call: no pipeline, no cached models. -/
def freshState (d : Device) : SDState :=
  { pipeline := none, img2img_pipeline := none, current_model := none,
    device := d, models_cache := [], constructed := [] }

/-- `max_cached_models = 2 if self.device == "cuda" else 1`
(`app.py` line 216; `app_cpu.py` line 118 hard-codes the limit 1 for
its CPU-only device). -/
def maxCachedModels : Device → Nat
  | .cuda => 2
  | .cpu => 1

/-- Outcome of one attempted engine construction inside `load_model`'s
`try` block. `constructorRaises`: `from_pretrained` itself raises, so
`self.pipeline` is never reassigned. `postConstructRaises`: a statement
after the `self.pipeline = from_pretrained(...)` assignment raises
(scheduler setup, optimization flags, or `.to(device)`), so the new,
partially configured pipeline is already installed when the `except`
handler returns `False`. `ok`: the whole block succeeds. -/
inductive LoadOutcome
  | ok
  | constructorRaises
  | postConstructRaises
deriving DecidableEq, Repr

/-- `LocalSDService.load_model` (`app.py` lines 174–226; the CPU variant
`app_cpu.py` lines 81–128 differs only in scheduler/optimization details
and its capacity, both captured by `device`). Returns the new state and
the boolean result. Steps, in source order: the already-loaded no-op
check; the `models_cache` hit; otherwise construction (with the given
outcome), conditional cache insertion when strictly below capacity, and
the final `current_model` update. -/
def load_model (s : SDState) (model_id : String) (outcome : LoadOutcome) :
    SDState × Bool :=
  if s.current_model = some model_id ∧ s.pipeline ≠ none then (s, true)
  else
    match s.models_cache.lookup model_id with
    | some eng =>
        ({ s with pipeline := some eng, current_model := some model_id }, true)
    | none =>
        match outcome with
        | .constructorRaises => (s, false)
        | .postConstructRaises =>
            ({ s with pipeline := some ⟨model_id, s.constructed.length⟩,
                      constructed := s.constructed ++ [model_id] }, false)
        | .ok =>
            let eng : Engine := ⟨model_id, s.constructed.length⟩
            let cache :=
              if s.models_cache.length < maxCachedModels s.device then
                s.models_cache ++ [(model_id, eng)]
              else s.models_cache
            ({ s with pipeline := some eng,
                      current_model := some model_id,
                      models_cache := cache,
                      constructed := s.constructed ++ [model_id] }, true)

/-- A sequence of `load_model` calls, threading the state. -/
def runLoads (s : SDState) (ops : List (String × LoadOutcome)) : SDState :=
  ops.foldl (fun st op => (load_model st op.1 op.2).1) s

/-! ## Generation operations -/

/-- The error classes of the structured failure results (`success:
False` dictionaries). `noModelLoaded` carries the literal message
`"No model loaded"` (`app.py` line 232). `img2imgConstructionRaised`
is the generic `str(e)` produced when
`StableDiffusionImg2ImgPipeline.from_pretrained(self.current_model)` is
invoked with `current_model = None` and raises; that exception text is
the library's, and is not the string `"No model loaded"`. -/
inductive ErrKind
  | noModelLoaded
  | img2imgConstructionRaised
deriving DecidableEq, Repr

/-- The invocation of `self.pipeline(...)` inside `generate_image`
(`app.py` lines 255–263): every argument the engine receives. -/
structure TextEngineCall where
  prompt : List Char
  negative_prompt : String
  num_inference_steps : Nat
  guidance_scale : ℚ
  width : Nat
  height : Nat
  seed : Option Nat
  eng : Engine
deriving DecidableEq, Repr

/-- The metadata dictionary of a successful `generate_image`
(`app.py` lines 276–285). -/
structure GenMetadata where
  model : Option String
  style : String
  steps : Nat
  guidance_scale : ℚ
  width : Nat
  height : Nat
  original_prompt_words : Nat
  optimized_prompt_words : Nat
  prompt_optimized : Bool
deriving DecidableEq, Repr

/-- Result of `generate_image`: either the early structured failure, or
an engine invocation with the metadata returned on success. (A failure
inside the engine is caught and returned as a structured failure; no
claim depends on that branch, and it never yields image bytes.) -/
inductive GenResult
  | failure (e : ErrKind)
  | invoked (call : TextEngineCall) (md : GenMetadata)
deriving DecidableEq, Repr

/-- `LocalSDService.generate_image` (`app.py` lines 228–291): the
no-model check, style lookup with cartoon fallback, prompt composition
`f"{config['positive_prompt']}, {prompt}"`, CLIP budgeting, and the
engine invocation with the preset's parameters. -/
def generate_image (s : SDState) (prompt : String) (style : String)
    (seed : Option Nat) : GenResult :=
  match s.pipeline with
  | none => .failure .noModelLoaded
  | some eng =>
    let config := getStyleConfig style
    let full_prompt := (config.positive_prompt ++ ", ").toList ++ prompt.toList
    let optimized_prompt := optimize_prompt_for_clip full_prompt 75
    .invoked
      { prompt := optimized_prompt
        negative_prompt := config.negative_prompt
        num_inference_steps := config.steps
        guidance_scale := config.guidance_scale
        width := config.width, height := config.height
        seed := seed, eng := eng }
      { model := s.current_model
        style := style
        steps := config.steps
        guidance_scale := config.guidance_scale
        width := config.width, height := config.height
        original_prompt_words := wordCount full_prompt
        optimized_prompt_words := wordCount optimized_prompt
        prompt_optimized := prompt_optimized_flag full_prompt }

/-- `max(15, int(config["steps"] * 0.8))` (`app.py` lines 353 and 374).
For every step count in the registry (20, 25, 30, 35) the float product
`steps * 0.8` is exact after rounding (16, 20, 24, 28), so truncation
agrees with exact rational floor, modelled as `steps * 4 / 5` in `Nat`. -/
def img2img_steps (steps : Nat) : Nat := max 15 (steps * 4 / 5)

/-- The invocation of `self.img2img_pipeline(...)` inside
`generate_image_from_character` (`app.py` lines 348–356). The decoded
reference image is carried as its base64 payload (pixel decoding is
outside the modelled core). -/
structure Img2ImgCall where
  prompt : List Char
  image : String
  strength : ℚ
  negative_prompt : String
  num_inference_steps : Nat
  guidance_scale : ℚ
  seed : Option Nat
  eng : Engine
deriving DecidableEq, Repr

/-- The metadata dictionary of a successful
`generate_image_from_character` (`app.py` lines 369–380). -/
structure CharGenMetadata where
  model : Option String
  style : String
  strength : ℚ
  steps : Nat
  guidance_scale : ℚ
  character_based : Bool
  original_prompt_words : Nat
  optimized_prompt_words : Nat
  prompt_optimized : Bool
deriving DecidableEq, Repr

/-- Result of `generate_image_from_character`: a structured failure, or
an img2img-engine invocation with the metadata returned on success. -/
inductive CharGenResult
  | failure (e : ErrKind)
  | invoked (call : Img2ImgCall) (md : CharGenMetadata)
deriving DecidableEq, Repr

/-- The body of `generate_image_from_character` once the img2img
pipeline `e2` is available (`app.py` lines 322–381): scene prompt
composition `f"{config['positive_prompt']}, {prompt}, same character,
consistent art style"`, CLIP budgeting, and the img2img engine
invocation with the reference image, `strength`, and the reduced step
count. -/
def runImg2Img (s : SDState) (e2 : Engine) (prompt character_image_base64 : String)
    (style : String) (seed : Option Nat) (strength : ℚ) : CharGenResult :=
  let config := getStyleConfig style
  let scene_prompt := (config.positive_prompt ++ ", ").toList ++ prompt.toList
    ++ ", same character, consistent art style".toList
  let optimized_scene_prompt := optimize_prompt_for_clip scene_prompt 75
  .invoked
    { prompt := optimized_scene_prompt
      image := character_image_base64
      strength := strength
      negative_prompt := config.negative_prompt
      num_inference_steps := img2img_steps config.steps
      guidance_scale := config.guidance_scale
      seed := seed, eng := e2 }
    { model := s.current_model
      style := style
      strength := strength
      steps := img2img_steps config.steps
      guidance_scale := config.guidance_scale
      character_based := true
      original_prompt_words := wordCount scene_prompt
      optimized_prompt_words := wordCount optimized_scene_prompt
      prompt_optimized := prompt_optimized_flag scene_prompt }

/-- `LocalSDService.generate_image_from_character` (`app.py` lines
293–386). There is no no-model check: when `img2img_pipeline` is unset
it is lazily constructed from `self.current_model`; with
`current_model = None` the underlying `from_pretrained(None)` raises and
the `except` handler returns the generic failure.
Returns the result and the (possibly updated) state. -/
def generate_image_from_character (s : SDState) (prompt : String)
    (character_image_base64 : String) (style : String) (seed : Option Nat)
    (strength : ℚ) : CharGenResult × SDState :=
  match s.img2img_pipeline with
  | some e2 => (runImg2Img s e2 prompt character_image_base64 style seed strength, s)
  | none =>
    match s.current_model with
    | none => (.failure .img2imgConstructionRaised, s)
    | some m =>
      let e2 : Engine := ⟨m, s.constructed.length⟩
      let s' := { s with img2img_pipeline := some e2 }
      (runImg2Img s' e2 prompt character_image_base64 style seed strength, s')

/-- Result of the `/generate-scene` endpoint
(`generate_scene_with_character`, `app.py` lines 439–471): the three
input-validation failures (HTTP 400, each an `InvalidArgument` in the
spec's taxonomy), or the result of `generate_image_from_character`. -/
inductive SceneEndpointResult
  | errPromptRequired
  | errImageRequired
  | errInvalidStrength
  | genResult (r : CharGenResult) (s2 : SDState)
deriving DecidableEq, Repr

/-- `generate_scene_with_character` (`app.py` lines 439–471): requires a
non-empty prompt, a non-empty base64 character image, and
`0.1 <= strength <= 1.0`, in that order, before calling
`generate_image_from_character`. -/
def generate_scene_endpoint (s : SDState) (prompt character_image : String)
    (style : String) (seed : Option Nat) (strength : ℚ) : SceneEndpointResult :=
  if prompt = "" then .errPromptRequired
  else if character_image = "" then .errImageRequired
  else if ¬ (1/10 ≤ strength ∧ strength ≤ 1) then .errInvalidStrength
  else
    let r := generate_image_from_character s prompt character_image style seed strength
    .genResult r.1 r.2

/-! ## Auxiliary notions for stating and proving the claims -/

/-- A string whose last character (if any) is not whitespace. Stripped
segments and word-joins have this shape; it is what makes the `", "`
re-join token-count additive. -/
def endsNonWs (p : List Char) : Prop :=
  ∀ c, p.getLast? = some c → isWs c = false

/-- Apply `f` to the last element of a list (identity on `[]`). -/
def modLast (f : List Char → List Char) : List (List Char) → List (List Char)
  | [] => []
  | [g] => [f g]
  | g :: g2 :: gs => g :: modLast f (g2 :: gs)

/-- An 80-word prompt consisting of a single comma-free segment that
contains the priority keyword `"character"`: the whole prompt is one
style segment. -/
def overBudgetStylePrompt : List Char :=
  ("character" ++ String.join (List.replicate 79 " w")).toList

/-! ## Lifecycle lemmas -/

theorem load_model_device (s : SDState) (m : String) (o : LoadOutcome) :
    ((load_model s m o).1).device = s.device := by
  unfold load_model
  split
  · rfl
  · split
    · rfl
    · cases o <;> rfl

theorem load_model_cache_le (s : SDState) (m : String) (o : LoadOutcome)
    (h : s.models_cache.length ≤ maxCachedModels s.device) :
    ((load_model s m o).1).models_cache.length ≤ maxCachedModels s.device := by
  unfold load_model
  split
  · exact h
  · split
    · exact h
    · cases o
      · dsimp only
        split
        · simpa [List.length_append] using ‹s.models_cache.length < maxCachedModels s.device›
        · exact h
      · exact h
      · exact h

theorem runLoads_inv (ops : List (String × LoadOutcome)) :
    ∀ (s : SDState), s.models_cache.length ≤ maxCachedModels s.device →
      ((runLoads s ops).models_cache).length ≤ maxCachedModels s.device ∧
      (runLoads s ops).device = s.device := by
  induction ops with
  | nil => intro s h; exact ⟨h, rfl⟩
  | cons op ops ih =>
    intro s h
    have hdev := load_model_device s op.1 op.2
    have hstep := load_model_cache_le s op.1 op.2 h
    have hrec := ih ((load_model s op.1 op.2).1) (by rw [hdev]; exact hstep)
    refine ⟨?_, ?_⟩
    · have : runLoads s (op :: ops) = runLoads ((load_model s op.1 op.2).1) ops := rfl
      rw [this, ← hdev]
      exact hrec.1
    · have : runLoads s (op :: ops) = runLoads ((load_model s op.1 op.2).1) ops := rfl
      rw [this, hrec.2, hdev]

/-- C7: across every sequence of `load_model` calls (with arbitrary
success/failure outcomes for each underlying construction), the size of
the `models_cache` residency cache never exceeds its configured
capacity: `maxCachedModels` is 2 for the CUDA device and 1 for the CPU
device. -/
theorem c7_cache_capacity (d : Device) (ops : List (String × LoadOutcome)) :
    ((runLoads (freshState d) ops).models_cache).length ≤ maxCachedModels d :=
  (runLoads_inv ops (freshState d) (by cases d <;> simp [freshState, maxCachedModels])).1

/-- C1 counterexample: from a service whose capacity-1 cache starts
empty, the sequence `load_model "A"`, `load_model "B"`, `load_model "A"`
invokes the underlying engine constructor only for the first two calls
(`constructed = ["A", "B"]`): `"A"` was retained by the first call (no
eviction ever removes it), so the third call is a cache **hit** and
re-activates the very engine built by the first call (birth index 0) —
the engine for `"A"` is *not* reconstructed, contradicting the claim. -/
theorem c1_counterexample :
    (runLoads (freshState .cpu) [("A", .ok), ("B", .ok), ("A", .ok)]).constructed
        = ["A", "B"] ∧
    (runLoads (freshState .cpu) [("A", .ok), ("B", .ok), ("A", .ok)]).constructed.count "A"
        = 1 ∧
    (runLoads (freshState .cpu) [("A", .ok), ("B", .ok), ("A", .ok)]).pipeline
        = some ⟨"A", 0⟩ := by
  decide

/-- C1 amended: on a capacity-1 cache the first load of `"A"` is
retained, `"B"` then loads transiently without being cached, and the
third call is a cache hit — `"A"` is reconstructed exactly once. `"A"`
is reconstructed from scratch on the third call only when the cache was
already full before the sequence, as in the actual service whose
`__init__` pre-loads a default model (here `"D"`): then the constructor
log is `["D", "A", "B", "A"]`, i.e. `"A"` is constructed twice. -/
theorem c1_amended :
    ((runLoads (freshState .cpu) [("A", .ok), ("B", .ok), ("A", .ok)]).constructed
        = ["A", "B"] ∧
     (runLoads (freshState .cpu) [("A", .ok), ("B", .ok), ("A", .ok)]).models_cache
        = [("A", ⟨"A", 0⟩)]) ∧
    ((runLoads (load_model (freshState .cpu) "D" .ok).1
        [("A", .ok), ("B", .ok), ("A", .ok)]).constructed = ["D", "A", "B", "A"] ∧
     (runLoads (load_model (freshState .cpu) "D" .ok).1
        [("A", .ok), ("B", .ok), ("A", .ok)]).constructed.count "A" = 2) := by
  decide

/-- C3 counterexample: with the engine for `"A"` active, a failed
`load_model "B"` in which the failure strikes *after* the
`self.pipeline = from_pretrained(...)` assignment (e.g. scheduler setup
or `.to(device)` raises) returns `False` but leaves the new, partially
configured `"B"` engine installed as the active pipeline while
`current_model` still says `"A"` — the previously active engine does
**not** remain active, so the failed load is not atomic. -/
theorem c3_counterexample :
    (load_model (load_model (freshState .cpu) "A" .ok).1 "B" .postConstructRaises).2
        = false ∧
    (load_model (freshState .cpu) "A" .ok).1.pipeline = some ⟨"A", 0⟩ ∧
    (load_model (load_model (freshState .cpu) "A" .ok).1 "B" .postConstructRaises).1.current_model
        = some "A" ∧
    (load_model (load_model (freshState .cpu) "A" .ok).1 "B" .postConstructRaises).1.pipeline
        = some ⟨"B", 1⟩ := by
  decide

/-- C3 amended: if the underlying engine constructor itself fails
(`from_pretrained` raises), the failed `load_model` leaves the service
state exactly as it was, so the previously active engine and model id
survive. If the failure instead strikes after the pipeline field was
reassigned, only `current_model`, the residency cache and the img2img
pipeline are preserved — the active engine is then the new partially
constructed one (see the counterexample). -/
theorem c3_amended (s : SDState) (m : String) :
    ((load_model s m .constructorRaises).2 = false →
        (load_model s m .constructorRaises).1 = s) ∧
    ((load_model s m .postConstructRaises).2 = false →
        (load_model s m .postConstructRaises).1.current_model = s.current_model ∧
        (load_model s m .postConstructRaises).1.models_cache = s.models_cache ∧
        (load_model s m .postConstructRaises).1.img2img_pipeline = s.img2img_pipeline) := by
  by_cases hcur : s.current_model = some m ∧ s.pipeline ≠ none
  · have h1 : load_model s m .constructorRaises = (s, true) := by
      unfold load_model; rw [if_pos hcur]
    have h2 : load_model s m .postConstructRaises = (s, true) := by
      unfold load_model; rw [if_pos hcur]
    constructor
    · intro hfail; rw [h1] at hfail; simp at hfail
    · intro hfail; rw [h2] at hfail; simp at hfail
  · cases hlook : s.models_cache.lookup m with
    | some eng =>
      have h1 : load_model s m .constructorRaises
          = ({ s with pipeline := some eng, current_model := some m }, true) := by
        unfold load_model; rw [if_neg hcur, hlook]
      have h2 : load_model s m .postConstructRaises
          = ({ s with pipeline := some eng, current_model := some m }, true) := by
        unfold load_model; rw [if_neg hcur, hlook]
      constructor
      · intro hfail; rw [h1] at hfail; simp at hfail
      · intro hfail; rw [h2] at hfail; simp at hfail
    | none =>
      have h1 : load_model s m .constructorRaises = (s, false) := by
        unfold load_model; rw [if_neg hcur, hlook]
      have h2 : load_model s m .postConstructRaises
          = ({ s with pipeline := some ⟨m, s.constructed.length⟩,
                      constructed := s.constructed ++ [m] }, false) := by
        unfold load_model; rw [if_neg hcur, hlook]
      constructor
      · intro _; rw [h1]
      · intro _; rw [h2]; exact ⟨rfl, rfl, rfl⟩

/-- Witness for C3 amended, at a concrete state and model id. -/
theorem c3_amended_witness :
    (load_model (freshState .cpu) "X" .constructorRaises).1 = freshState .cpu :=
  (c3_amended (freshState .cpu) "X").1 (by decide)

/-! ## Style registry and generation lemmas -/

theorem getStyleConfig_cases (style : String) :
    getStyleConfig style = cartoonConfig ∨ getStyleConfig style = animeConfig ∨
    getStyleConfig style = storybookConfig ∨ getStyleConfig style = realisticConfig := by
  unfold getStyleConfig style_configs
  simp only [List.lookup]
  repeat' split
  all_goals simp

theorem img2img_steps_lt_of_config (style : String) :
    img2img_steps (getStyleConfig style).steps < (getStyleConfig style).steps := by
  rcases getStyleConfig_cases style with h | h | h | h <;> rw [h] <;> decide

/-- C9: style lookup is total — a registered name yields its preset, an
unknown name yields the fixed default (`cartoon`) preset, and `generate`
therefore produces an engine invocation (never a style error) for every
style string whenever a pipeline is loaded. -/
theorem c9_style_lookup_total (style : String) :
    (∀ c, style_configs.lookup style = some c → getStyleConfig style = c) ∧
    (style_configs.lookup style = none → getStyleConfig style = cartoonConfig) ∧
    (∀ (s : SDState) (eng : Engine) (prompt : String) (seed : Option Nat),
        s.pipeline = some eng →
        ∃ call md, generate_image s prompt style seed = .invoked call md) := by
  refine ⟨?_, ?_, ?_⟩
  · intro c hc; unfold getStyleConfig; rw [hc]; rfl
  · intro hc; unfold getStyleConfig; rw [hc]; rfl
  · intro s eng prompt seed he
    unfold generate_image; rw [he]
    exact ⟨_, _, rfl⟩

/-- Witness for C9 at the unknown style name `"watercolor"` (not in the
registry): the lookup falls back to the cartoon preset. -/
theorem c9_style_lookup_total_witness :
    getStyleConfig "watercolor" = cartoonConfig :=
  (c9_style_lookup_total "watercolor").2.1 (by decide)

/-- C10: for a generate call with a style name absent from the registry,
the returned metadata's `style` field is the requested unknown name
(never the name `"cartoon"` of the default preset whose step count and
guidance scale were actually used), so the caller cannot detect the
silent fallback from the result. -/
theorem c10_metadata_style (s : SDState) (eng : Engine) (prompt style : String)
    (seed : Option Nat) (he : s.pipeline = some eng)
    (hu : style_configs.lookup style = none) :
    ∃ call md, generate_image s prompt style seed = .invoked call md ∧
      md.style = style ∧
      call.num_inference_steps = cartoonConfig.steps ∧
      md.steps = cartoonConfig.steps ∧
      md.guidance_scale = cartoonConfig.guidance_scale ∧
      md.style ≠ "cartoon" := by
  have hcfg : getStyleConfig style = cartoonConfig := by
    unfold getStyleConfig; rw [hu]; rfl
  have hne : style ≠ "cartoon" := by
    intro h
    rw [h] at hu
    simp [style_configs, List.lookup] at hu
  unfold generate_image
  rw [he]
  refine ⟨_, _, rfl, rfl, ?_, ?_, ?_, hne⟩
  · show (getStyleConfig style).steps = cartoonConfig.steps
    rw [hcfg]
  · show (getStyleConfig style).steps = cartoonConfig.steps
    rw [hcfg]
  · show (getStyleConfig style).guidance_scale = cartoonConfig.guidance_scale
    rw [hcfg]

/-- Witness for C10 at style `"watercolor"` and a concrete loaded
state. -/
theorem c10_metadata_style_witness :
    ∃ call md,
      generate_image
        { pipeline := some ⟨"m", 0⟩, img2img_pipeline := none,
          current_model := some "m", device := .cuda,
          models_cache := [("m", ⟨"m", 0⟩)], constructed := ["m"] }
        "a boy" "watercolor" none = .invoked call md ∧
      md.style = "watercolor" ∧
      call.num_inference_steps = cartoonConfig.steps ∧
      md.steps = cartoonConfig.steps ∧
      md.guidance_scale = cartoonConfig.guidance_scale ∧
      md.style ≠ "cartoon" :=
  c10_metadata_style _ ⟨"m", 0⟩ "a boy" "watercolor" none rfl (by decide)

/-- C8: for every style (registered or falling back to the default),
`generate_image_from_character` invokes its engine with step count
`max(15, floor(step_count * 0.8))` — modelled exactly as
`img2img_steps`, which agrees with the Python float computation on every
registry step count — reports that same value in the result metadata,
and this value is strictly less than the preset's `step_count`, which is
the step count `generate_image` passes to the engine for the same
style. -/
theorem c8_img2img_steps (s : SDState) (e2 : Engine) (prompt img style : String)
    (seed : Option Nat) (strength : ℚ) (h : s.img2img_pipeline = some e2) :
    (∃ call md,
        generate_image_from_character s prompt img style seed strength
          = (.invoked call md, s) ∧
        call.num_inference_steps = img2img_steps (getStyleConfig style).steps ∧
        md.steps = img2img_steps (getStyleConfig style).steps) ∧
    img2img_steps (getStyleConfig style).steps < (getStyleConfig style).steps ∧
    (∀ eng, s.pipeline = some eng →
        ∃ tc tmd, generate_image s prompt style seed = .invoked tc tmd ∧
          tc.num_inference_steps = (getStyleConfig style).steps) := by
  refine ⟨?_, img2img_steps_lt_of_config style, ?_⟩
  · unfold generate_image_from_character
    rw [h]
    exact ⟨_, _, rfl, rfl, rfl⟩
  · intro eng he
    unfold generate_image
    rw [he]
    exact ⟨_, _, rfl, rfl⟩

/-- Witness for C8 at style `"anime"` (engine steps 20 = max(15, ⌊25·0.8⌋)
versus 25 for prompt-only generation) and a concrete loaded state. -/
theorem c8_img2img_steps_witness :
    img2img_steps (getStyleConfig "anime").steps < (getStyleConfig "anime").steps ∧
    img2img_steps (getStyleConfig "anime").steps = 20 ∧
    (getStyleConfig "anime").steps = 25 :=
  ⟨(c8_img2img_steps
      { pipeline := some ⟨"m", 0⟩, img2img_pipeline := some ⟨"m", 1⟩,
        current_model := some "m", device := .cuda,
        models_cache := [("m", ⟨"m", 0⟩)], constructed := ["m"] }
      ⟨"m", 1⟩ "p" "img" "anime" none (7/10) rfl).2.1,
   by decide, by decide⟩

/-- C5 counterexample: on the fresh service state (no successful load
ever happened), `generate_image_from_character` does **not** fail with
the `"No model loaded"` structured failure: it attempts to construct the
image-conditioned engine from `current_model = None`, and the resulting
failure is the generic exception text of `from_pretrained(None)`. -/
theorem c5_counterexample :
    (generate_image_from_character (freshState .cuda) "forest scene" "img"
        "cartoon" none (7/10)).1 = .failure .img2imgConstructionRaised ∧
    (generate_image_from_character (freshState .cuda) "forest scene" "img"
        "cartoon" none (7/10)).1 ≠ .failure .noModelLoaded := by
  decide

/-- C5 amended: before any successful model load, `generate` fails with
the `NoModelLoaded` structured failure without invoking any engine; but
`generate_from_reference` performs no such check — it attempts to lazily
construct the image-conditioned engine with the absent model id and
fails with a generic construction failure instead (leaving the state
unchanged). -/
theorem c5_amended (s : SDState) (prompt img style : String) (seed : Option Nat)
    (strength : ℚ) (h1 : s.pipeline = none) (h2 : s.img2img_pipeline = none)
    (h3 : s.current_model = none) :
    generate_image s prompt style seed = .failure .noModelLoaded ∧
    (generate_image_from_character s prompt img style seed strength).1
        = .failure .img2imgConstructionRaised ∧
    (generate_image_from_character s prompt img style seed strength).2 = s := by
  refine ⟨?_, ?_, ?_⟩
  · unfold generate_image; rw [h1]
  · unfold generate_image_from_character; rw [h2, h3]
  · unfold generate_image_from_character; rw [h2, h3]

/-- Witness for C5 amended at the fresh CUDA service state. -/
theorem c5_amended_witness :
    generate_image (freshState .cuda) "a boy" "cartoon" none
        = .failure .noModelLoaded ∧
    (generate_image_from_character (freshState .cuda) "a boy" "img" "cartoon"
        none (7/10)).1 = .failure .img2imgConstructionRaised :=
  ⟨(c5_amended (freshState .cuda) "a boy" "img" "cartoon" none (7/10)
      rfl rfl rfl).1,
   (c5_amended (freshState .cuda) "a boy" "img" "cartoon" none (7/10)
      rfl rfl rfl).2.1⟩

/-- C6: for every `strength` outside `[0.1, 1.0]`, the
`/generate-scene` operation fails with one of its input-validation
failures (all `InvalidArgument` in the spec's taxonomy) and never
reaches `generate_image_from_character` — no engine is invoked; with
the prompt and reference image present, the failure is specifically the
strength-validation error. -/
theorem c6_strength_validation (s : SDState) (prompt img style : String)
    (seed : Option Nat) (strength : ℚ) (hs : strength < 1/10 ∨ 1 < strength) :
    (generate_scene_endpoint s prompt img style seed strength = .errInvalidStrength ∨
     generate_scene_endpoint s prompt img style seed strength = .errPromptRequired ∨
     generate_scene_endpoint s prompt img style seed strength = .errImageRequired) ∧
    (prompt ≠ "" → img ≠ "" →
      generate_scene_endpoint s prompt img style seed strength = .errInvalidStrength) := by
  have hnot : ¬ (1/10 ≤ strength ∧ strength ≤ 1) := by
    rcases hs with h | h
    · exact fun hc => absurd hc.1 (not_le.mpr h)
    · exact fun hc => absurd hc.2 (not_le.mpr h)
  constructor
  · by_cases hp : prompt = ""
    · right; left; simp [generate_scene_endpoint, hp]
    · by_cases hi : img = ""
      · right; right; simp [generate_scene_endpoint, hp, hi]
      · left
        unfold generate_scene_endpoint
        rw [if_neg hp, if_neg hi, if_pos hnot]
  · intro hp hi
    unfold generate_scene_endpoint
    rw [if_neg hp, if_neg hi, if_pos hnot]

/-- Witness for C6: the spec's own example — strength 0.05 (below 0.1)
with a present prompt and reference image is rejected as invalid. -/
theorem c6_strength_validation_witness :
    generate_scene_endpoint (freshState .cuda) "forest scene" "QUJB" "cartoon"
        none (1/20) = .errInvalidStrength :=
  (c6_strength_validation (freshState .cuda) "forest scene" "QUJB" "cartoon"
      none (1/20) (Or.inl (by norm_num))).2 (by decide) (by decide)

set_option maxRecDepth 8000 in
/-- C4 counterexample: `overBudgetStylePrompt` has 80 whitespace tokens
(over the budget of 75), yet the `prompt_optimized` metadata flag —
`len(full_prompt.split()) > len(optimized_prompt.split())` — is `false`,
because the whole prompt is a single style segment that the budgeter
keeps verbatim: the flag is not "token count exceeds the budget". -/
theorem c4_counterexample :
    prompt_optimized_flag overBudgetStylePrompt = false ∧
    75 < wordCount overBudgetStylePrompt := by
  decide

/-- C4 amended: the only truncation flag the code returns is the
metadata's `prompt_optimized`, which records whether budgeting strictly
*reduced* the whitespace-token count. For every prompt within the
75-token budget the prompt is returned unchanged and the flag is
`false`; conversely the flag can be `true` only for prompts exceeding
the budget (but not for all of them — see the counterexample). -/
theorem c4_amended (full_prompt : List Char) :
    (wordCount full_prompt ≤ 75 →
        optimize_prompt_for_clip full_prompt 75 = full_prompt ∧
        prompt_optimized_flag full_prompt = false) ∧
    (prompt_optimized_flag full_prompt = true → 75 < wordCount full_prompt) := by
  constructor
  · intro h
    have hopt : optimize_prompt_for_clip full_prompt 75 = full_prompt := by
      unfold optimize_prompt_for_clip
      rw [if_pos h]
    refine ⟨hopt, ?_⟩
    unfold prompt_optimized_flag
    rw [hopt]
    simp
  · intro h
    by_contra hc
    push_neg at hc
    have hle : wordCount full_prompt ≤ 75 := by omega
    have hopt : optimize_prompt_for_clip full_prompt 75 = full_prompt := by
      unfold optimize_prompt_for_clip
      rw [if_pos hle]
    unfold prompt_optimized_flag at h
    rw [hopt] at h
    simp at h

/-- Witness for C4 amended at a short prompt. -/
theorem c4_amended_witness :
    optimize_prompt_for_clip "a boy and his dog".toList 75 = "a boy and his dog".toList ∧
    prompt_optimized_flag "a boy and his dog".toList = false :=
  (c4_amended "a boy and his dog".toList).1 (by decide)

/-! ## Word-count machinery for the budgeter bound -/

theorem splitP_append_sep (p : Char → Bool) (ch : Char) (hch : p ch = true)
    (a b : List Char) :
    splitP p (a ++ ch :: b) =
      ((splitP p a).1, (splitP p a).2 ++ (splitP p b).1 :: (splitP p b).2) := by
  induction a with
  | nil => simp [splitP, hch]
  | cons c a ih =>
    by_cases h : p c = true
    · simp [splitP, h, ih]
    · simp [splitP, h, ih]

theorem wsSplit_append_sep (ch : Char) (hch : isWs ch = true) (a b : List Char) :
    wsSplit (a ++ ch :: b) = wsSplit a ++ wsSplit b := by
  unfold wsSplit pyGroups
  rw [splitP_append_sep isWs ch hch a b]
  dsimp only
  rw [← List.cons_append, List.filter_append]

theorem wordCount_append_sep (ch : Char) (hch : isWs ch = true) (a b : List Char) :
    wordCount (a ++ ch :: b) = wordCount a + wordCount b := by
  unfold wordCount
  rw [wsSplit_append_sep ch hch a b, List.length_append]

theorem modLast_append_singleton (f : List Char → List Char) :
    ∀ (init : List (List Char)) (g : List Char),
      modLast f (init ++ [g]) = init ++ [f g] := by
  intro init
  induction init with
  | nil => intro g; rfl
  | cons a init ih =>
    intro g
    cases init with
    | nil => rfl
    | cons b init2 =>
      have ih2 := ih g
      simp only [List.cons_append] at ih2 ⊢
      rw [modLast, ih2]

theorem pyGroups_append_nonsep (d : Char) (hd : isWs d = false) :
    ∀ (a : List Char),
      pyGroups isWs (a ++ [d]) = modLast (fun g => g ++ [d]) (pyGroups isWs a) := by
  intro a
  induction a with
  | nil => simp [pyGroups, splitP, hd, modLast]
  | cons c a ih =>
    by_cases hc : isWs c = true
    · have l1 : pyGroups isWs ((c :: a) ++ [d]) = [] :: pyGroups isWs (a ++ [d]) := by
        simp [pyGroups, splitP, hc]
      have l2 : pyGroups isWs (c :: a) = [] :: pyGroups isWs a := by
        simp [pyGroups, splitP, hc]
      rw [l1, l2, ih]
      show ([] : List Char) :: modLast _ ((splitP isWs a).1 :: (splitP isWs a).2)
          = modLast _ (([] : List Char) :: (splitP isWs a).1 :: (splitP isWs a).2)
      rw [modLast]
    · have hc2 : isWs c = false := by simpa using hc
      have l1 : pyGroups isWs ((c :: a) ++ [d])
          = (c :: (splitP isWs (a ++ [d])).1) :: (splitP isWs (a ++ [d])).2 := by
        simp [pyGroups, splitP, hc2]
      have l2 : pyGroups isWs (c :: a)
          = (c :: (splitP isWs a).1) :: (splitP isWs a).2 := by
        simp [pyGroups, splitP, hc2]
      rw [l1, l2]
      have ihg := ih
      unfold pyGroups at ihg
      cases h2 : (splitP isWs a).2 with
      | nil =>
        rw [h2] at ihg
        simp only [modLast] at ihg
        injection ihg with e1 e2
        rw [e1, e2]
        simp [modLast]
      | cons g2 gs =>
        rw [h2] at ihg
        simp only [modLast] at ihg
        injection ihg with e1 e2
        rw [e1, e2]
        simp [modLast]

theorem filter_length_modLast (f : List Char → List Char) :
    ∀ (L : List (List Char)) (gl : List Char), L.getLast? = some gl →
      gl ≠ [] → f gl ≠ [] →
      ((modLast f L).filter (fun g => !g.isEmpty)).length
        = (L.filter (fun g => !g.isEmpty)).length := by
  intro L
  induction L with
  | nil => intro gl h; cases h
  | cons a L ih =>
    intro gl hlast hne hfne
    cases L with
    | nil =>
      have ha : a = gl := by simpa using hlast
      subst ha
      have h1 : a.isEmpty = false := by
        cases a with
        | nil => cases hne rfl
        | cons x t => rfl
      have h2 : (f a).isEmpty = false := by
        cases hfa : f a with
        | nil => cases hfne hfa
        | cons x t => rfl
      simp [modLast, List.filter, h1, h2]
    | cons b L2 =>
      have hlast2 : (b :: L2).getLast? = some gl := by
        rw [List.getLast?_cons_cons] at hlast; exact hlast
      have hrec := ih gl hlast2 hne hfne
      show ((a :: modLast f (b :: L2)).filter _).length = _
      rw [List.filter_cons, List.filter_cons]
      by_cases hp : (!a.isEmpty) = true
      · rw [if_pos hp, if_pos hp]
        simp [hrec]
      · rw [if_neg hp, if_neg hp]
        exact hrec

theorem pyGroups_no_sep (p : Char → Bool) :
    ∀ (l : List Char) (g : List Char), g ∈ pyGroups p l → ∀ c ∈ g, p c = false := by
  intro l
  induction l with
  | nil =>
    intro g hg c hc
    simp [pyGroups, splitP] at hg
    subst hg
    simp at hc
  | cons d l ih =>
    intro g hg c hc
    by_cases hd : p d = true
    · have hsplit : pyGroups p (d :: l) = [] :: pyGroups p l := by
        simp [pyGroups, splitP, hd]
      rw [hsplit] at hg
      rcases List.mem_cons.mp hg with h | h
      · subst h; simp at hc
      · exact ih g h c hc
    · have hd2 : p d = false := by simpa using hd
      have hsplit : pyGroups p (d :: l) = (d :: (splitP p l).1) :: (splitP p l).2 := by
        simp [pyGroups, splitP, hd2]
      rw [hsplit] at hg
      rcases List.mem_cons.mp hg with h | h
      · subst h
        rcases List.mem_cons.mp hc with h2 | h2
        · subst h2; exact hd2
        · exact ih (splitP p l).1 (List.mem_cons_self _ _) c h2
      · exact ih g (List.mem_cons_of_mem _ h) c hc

theorem splitP_all_nonsep (p : Char → Bool) :
    ∀ (w : List Char), (∀ c ∈ w, p c = false) → splitP p w = (w, []) := by
  intro w
  induction w with
  | nil => intro _; rfl
  | cons c w ih =>
    intro h
    have hc : p c = false := h c (List.mem_cons_self c w)
    have hw : splitP p w = (w, []) := ih (fun d hd => h d (List.mem_cons_of_mem c hd))
    simp [splitP, hc, hw]

theorem wordCount_single_word (w : List Char) (hne : w ≠ [])
    (hall : ∀ c ∈ w, isWs c = false) : wordCount w = 1 := by
  unfold wordCount wsSplit pyGroups
  rw [splitP_all_nonsep isWs w hall]
  cases w with
  | nil => cases hne rfl
  | cons c t => rfl

theorem wordCount_pyJoin_space :
    ∀ (L : List (List Char)),
      wordCount (pyJoin [' '] L) = (L.map wordCount).sum := by
  intro L
  induction L with
  | nil => rfl
  | cons a L ih =>
    cases L with
    | nil => simp [pyJoin]
    | cons b L2 =>
      have hstep : pyJoin [' '] (a :: b :: L2) = a ++ ' ' :: pyJoin [' '] (b :: L2) := by
        show a ++ [' '] ++ pyJoin [' '] (b :: L2) = _
        rw [List.append_assoc]
        rfl
      rw [hstep, wordCount_append_sep ' ' (by decide), ih]
      simp

theorem getLast?_reverse_eq_head? (l : List Char) : l.reverse.getLast? = l.head? := by
  have h := List.head?_reverse l.reverse
  rw [List.reverse_reverse] at h
  exact h.symm

theorem dropWhile_head_ws (l : List Char) (c : Char) (t : List Char)
    (h : l.dropWhile isWs = c :: t) : isWs c = false := by
  have hh := List.head?_dropWhile_not isWs l
  rw [h] at hh
  simpa using hh

theorem strip_endsNonWs (s : List Char) : endsNonWs (strip s) := by
  intro c hc
  unfold strip at hc
  rw [getLast?_reverse_eq_head?] at hc
  cases hdrop : (s.dropWhile isWs).reverse.dropWhile isWs with
  | nil => rw [hdrop] at hc; cases hc
  | cons c2 t =>
    rw [hdrop] at hc
    have hc2 : c2 = c := by simpa using hc
    subst hc2
    exact dropWhile_head_ws _ c2 t hdrop

theorem promptParts_endsNonWs (prompt : List Char) :
    ∀ q ∈ promptParts prompt, endsNonWs q := by
  intro q hq
  unfold promptParts at hq
  rcases List.mem_map.mp hq with ⟨s0, _, rfl⟩
  exact strip_endsNonWs s0

theorem wsSplit_words (s : List Char) :
    ∀ w ∈ wsSplit s, w ≠ [] ∧ ∀ c ∈ w, isWs c = false := by
  intro w hw
  unfold wsSplit at hw
  have hmem := List.mem_filter.mp hw
  refine ⟨?_, pyGroups_no_sep isWs s w hmem.1⟩
  intro hnil
  subst hnil
  simpa using hmem.2

theorem mem_of_getLast?_eq (l : List Char) (c : Char) (h : l.getLast? = some c) :
    c ∈ l := by
  rcases List.mem_getLast?_eq_getLast
      (show c ∈ l.getLast? from by rw [Option.mem_def]; exact h) with ⟨hne, hc⟩
  rw [hc]
  exact List.getLast_mem hne

theorem concat_decomp (l : List Char) (hne : l ≠ []) :
    ∃ q c, l = q ++ [c] := by
  rcases List.eq_nil_or_concat l with h | ⟨q, c, h⟩
  · exact absurd h hne
  · exact ⟨q, c, by simpa [List.concat_eq_append] using h⟩

theorem pyGroups_decomp (l : List Char) :
    ∃ init g0, pyGroups isWs l = init ++ [g0] := by
  have hne : pyGroups isWs l ≠ [] := by simp [pyGroups]
  rcases List.eq_nil_or_concat (pyGroups isWs l) with h | ⟨i, g, h⟩
  · exact absurd h hne
  · exact ⟨i, g, by simpa [List.concat_eq_append] using h⟩

theorem wordCount_append_nonsep (pend : List Char) (d : Char) (hd : isWs d = false)
    (hne : pend ≠ []) (hend : endsNonWs pend) :
    wordCount (pend ++ [d]) = wordCount pend := by
  rcases concat_decomp pend hne with ⟨q, c, rfl⟩
  have hc : isWs c = false := hend c (List.getLast?_concat q)
  unfold wordCount wsSplit
  rw [pyGroups_append_nonsep d hd (q ++ [c]), pyGroups_append_nonsep c hc q]
  rcases pyGroups_decomp q with ⟨init, g0, hq⟩
  rw [hq, modLast_append_singleton]
  exact filter_length_modLast (fun g => g ++ [d]) (init ++ [g0 ++ [c]]) (g0 ++ [c])
    (List.getLast?_concat init) (by simp) (by simp)

theorem wordCount_ge_one (pend : List Char) (hne : pend ≠ []) (hend : endsNonWs pend) :
    1 ≤ wordCount pend := by
  rcases concat_decomp pend hne with ⟨q, c, rfl⟩
  have hc : isWs c = false := hend c (List.getLast?_concat q)
  unfold wordCount wsSplit
  rw [pyGroups_append_nonsep c hc q]
  rcases pyGroups_decomp q with ⟨init, g0, hq⟩
  rw [hq, modLast_append_singleton]
  have hmem : (g0 ++ [c]) ∈ (init ++ [g0 ++ [c]]).filter (fun g => !g.isEmpty) :=
    List.mem_filter.mpr ⟨by simp, by simp⟩
  have hfne : (init ++ [g0 ++ [c]]).filter (fun g => !g.isEmpty) ≠ [] := by
    intro hf
    rw [hf] at hmem
    cases hmem
  exact List.length_pos.mpr hfne

theorem wsSplit_ne_nil (pend : List Char) (hne : pend ≠ []) (hend : endsNonWs pend) :
    wsSplit pend ≠ [] := by
  intro h
  have h1 := wordCount_ge_one pend hne hend
  unfold wordCount at h1
  rw [h] at h1
  simp at h1

theorem pyJoin_space_words_good :
    ∀ (L : List (List Char)), (∀ w ∈ L, w ≠ [] ∧ ∀ c ∈ w, isWs c = false) →
      (L ≠ [] → pyJoin [' '] L ≠ []) ∧ endsNonWs (pyJoin [' '] L) := by
  intro L
  induction L with
  | nil =>
    intro _
    refine ⟨fun h => absurd rfl h, ?_⟩
    intro c hc
    simp [pyJoin] at hc
  | cons a L ih =>
    intro hL
    have ha := hL a (List.mem_cons_self a L)
    cases L with
    | nil =>
      refine ⟨fun _ => ha.1, ?_⟩
      intro c hc
      exact ha.2 c (mem_of_getLast?_eq a c hc)
    | cons b L2 =>
      have hrest := ih (fun w hw => hL w (List.mem_cons_of_mem a hw))
      have hjoin_ne : pyJoin [' '] (b :: L2) ≠ [] := hrest.1 (by simp)
      have hshape : pyJoin [' '] (a :: b :: L2)
          = (a ++ [' ']) ++ pyJoin [' '] (b :: L2) := by
        show a ++ [' '] ++ pyJoin [' '] (b :: L2) = _
        rw [List.append_assoc]
      constructor
      · intro _
        rw [hshape]
        intro hcontra
        rcases List.append_eq_nil.mp hcontra with ⟨h1, _⟩
        rcases List.append_eq_nil.mp h1 with ⟨_, h2⟩
        cases h2
      · intro c hc
        rw [hshape, List.getLast?_append_of_ne_nil _ hjoin_ne] at hc
        exact hrest.2 c hc

theorem truncated_part_good (part : List Char) (n : Nat) (hn : 1 ≤ n)
    (hp : part ≠ []) (hend : endsNonWs part) :
    (pyJoin [' '] ((wsSplit part).take n) ≠ [] ∧
      endsNonWs (pyJoin [' '] ((wsSplit part).take n))) ∧
    wordCount (pyJoin [' '] ((wsSplit part).take n)) ≤ n := by
  have hws := wsSplit_words part
  have hTake : ∀ w ∈ (wsSplit part).take n, w ≠ [] ∧ ∀ c ∈ w, isWs c = false :=
    fun w hw => hws w (List.take_subset n _ hw)
  have hgood := pyJoin_space_words_good _ hTake
  have htne : (wsSplit part).take n ≠ [] := by
    have h1 : wsSplit part ≠ [] := wsSplit_ne_nil part hp hend
    cases hws2 : wsSplit part with
    | nil => exact absurd hws2 h1
    | cons w ws =>
      cases n with
      | zero => omega
      | succ k => simp
  refine ⟨⟨hgood.1 htne, hgood.2⟩, ?_⟩
  rw [wordCount_pyJoin_space]
  have hone : ∀ w ∈ (wsSplit part).take n, wordCount w = 1 :=
    fun w hw => wordCount_single_word w (hTake w hw).1 (hTake w hw).2
  calc (((wsSplit part).take n).map wordCount).sum
      = (((wsSplit part).take n).map (fun _ => 1)).sum := by
        rw [List.map_congr_left hone]
    _ = ((wsSplit part).take n).length := by simp
    _ ≤ n := List.length_take_le n _

theorem wordCount_pyJoin_comma :
    ∀ (L : List (List Char)), (∀ q ∈ L, q ≠ [] ∧ endsNonWs q) →
      wordCount (pyJoin commaSpace L) = (L.map wordCount).sum := by
  intro L
  induction L with
  | nil => intro _; rfl
  | cons a L ih =>
    intro hL
    cases L with
    | nil => simp [pyJoin]
    | cons b L2 =>
      have ha := hL a (List.mem_cons_self a (b :: L2))
      have hshape : pyJoin commaSpace (a :: b :: L2)
          = (a ++ [',']) ++ (' ' :: pyJoin commaSpace (b :: L2)) := by
        show a ++ commaSpace ++ pyJoin commaSpace (b :: L2) = _
        simp [commaSpace, List.append_assoc]
      rw [hshape, wordCount_append_sep ' ' (by decide),
        wordCount_append_nonsep a ',' (by decide) ha.1 ha.2,
        ih (fun q hq => hL q (List.mem_cons_of_mem a hq))]
      simp

theorem contentLoop_bound (maxT : Nat) :
    ∀ (ps : List (List Char)) (rem : Int) (acc : List (List Char)),
      (∀ q ∈ acc, q ≠ [] ∧ endsNonWs q) →
      (∀ q ∈ ps, q ≠ [] ∧ endsNonWs q) →
      0 ≤ rem →
      ((acc.map wordCount).sum : Int) + rem ≤ (maxT : Int) →
      (∀ q ∈ contentLoop ps rem acc, q ≠ [] ∧ endsNonWs q) ∧
        (((contentLoop ps rem acc).map wordCount).sum : Int) ≤ (maxT : Int) := by
  intro ps
  induction ps with
  | nil =>
    intro rem acc hacc _ hrem hsum
    refine ⟨?_, ?_⟩
    · simpa [contentLoop] using hacc
    · simp only [contentLoop]
      linarith
  | cons part ps ih =>
    intro rem acc hacc hps hrem hsum
    have hpart := hps part (List.mem_cons_self part ps)
    by_cases h1 : rem - (wordCount part : Int) > 0
    · have haccgood : ∀ q ∈ acc ++ [part], q ≠ [] ∧ endsNonWs q := by
        intro q hq
        rcases List.mem_append.mp hq with h | h
        · exact hacc q h
        · have : q = part := by simpa using h
          rw [this]; exact hpart
      have hsum2 : (((acc ++ [part]).map wordCount).sum : Int)
          + (rem - (wordCount part : Int)) ≤ (maxT : Int) := by
        rw [List.map_append, List.sum_append]
        simp only [List.map_cons, List.map_nil, List.sum_cons, List.sum_nil]
        push_cast at hsum ⊢
        linarith
      have hrec := ih (rem - (wordCount part : Int)) (acc ++ [part]) haccgood
        (fun q hq => hps q (List.mem_cons_of_mem part hq)) (by linarith) hsum2
      simp only [contentLoop]
      rw [if_pos h1]
      exact hrec
    · by_cases h2 : rem > 3
      · simp only [contentLoop]
        rw [if_neg h1, if_pos h2]
        have hn1 : 1 ≤ rem.toNat := by omega
        have htr := truncated_part_good part rem.toNat hn1 hpart.1 hpart.2
        constructor
        · intro q hq
          rcases List.mem_append.mp hq with h | h
          · exact hacc q h
          · have : q = pyJoin [' '] ((wsSplit part).take rem.toNat) := by simpa using h
            rw [this]
            exact ⟨htr.1.1, htr.1.2⟩
        · rw [List.map_append, List.sum_append]
          have hwc : (wordCount (pyJoin [' '] ((wsSplit part).take rem.toNat)) : Int)
              ≤ rem := by
            have h3 := htr.2
            omega
          simp only [List.map_cons, List.map_nil, List.sum_cons, List.sum_nil]
          push_cast at hsum ⊢
          linarith
      · simp only [contentLoop]
        rw [if_neg h1, if_neg h2]
        exact ⟨hacc, by linarith⟩

/-- C2 counterexample: the budgeter's output can exceed the budget. At
`max_units = 2`, the single style segment `"character a b c"` (4 words)
is kept verbatim because style segments are never truncated; at
`max_units = 3`, the empty segments of `"a, , , b"` are appended at zero
word cost but each re-emits a lone `","` token in the `", "` re-join,
yielding 4 whitespace tokens. -/
theorem c2_counterexample :
    ¬ (wordCount (optimize_prompt_for_clip "character a b c".toList 2) ≤ 2) ∧
    ¬ (wordCount (optimize_prompt_for_clip "a, , , b".toList 3) ≤ 3) := by
  decide

/-- C2 amended: the compressed prompt has at most `max_units` whitespace
tokens provided (1) every comma-separated segment of the prompt is
non-empty after stripping, and (2) the kept style segments (the first
five style-classified segments) together fit within `max_units` — the
two preconditions the counterexample shows to be necessary. -/
theorem c2_amended (prompt : List Char) (max_tokens : Nat)
    (h1 : ∀ q ∈ promptParts prompt, q ≠ [])
    (h2 : wordCount (pyJoin [' '] (((promptParts prompt).filter isStylePart).take 5))
        ≤ max_tokens) :
    wordCount (optimize_prompt_for_clip prompt max_tokens) ≤ max_tokens := by
  unfold optimize_prompt_for_clip
  split
  · next h => exact h
  · next h =>
    show wordCount (pyJoin commaSpace
      (contentLoop ((promptParts prompt).filter (fun p => !isStylePart p))
        ((max_tokens : Int) - (wordCount (pyJoin [' ']
          (((promptParts prompt).filter isStylePart).take 5)) : Int))
        (((promptParts prompt).filter isStylePart).take 5))) ≤ max_tokens
    have hgoodParts : ∀ q ∈ promptParts prompt, q ≠ [] ∧ endsNonWs q :=
      fun q hq => ⟨h1 q hq, promptParts_endsNonWs prompt q hq⟩
    have hgood5 : ∀ q ∈ ((promptParts prompt).filter isStylePart).take 5,
        q ≠ [] ∧ endsNonWs q :=
      fun q hq => hgoodParts q (List.mem_of_mem_filter (List.take_subset 5 _ hq))
    have hgoodc : ∀ q ∈ (promptParts prompt).filter (fun p => !isStylePart p),
        q ≠ [] ∧ endsNonWs q :=
      fun q hq => hgoodParts q (List.mem_of_mem_filter hq)
    have hrem0 : (0 : Int) ≤ (max_tokens : Int)
        - (wordCount (pyJoin [' '] (((promptParts prompt).filter isStylePart).take 5)) : Int) := by
      omega
    have hsum0 : (((((promptParts prompt).filter isStylePart).take 5).map wordCount).sum : Int)
        + ((max_tokens : Int)
          - (wordCount (pyJoin [' '] (((promptParts prompt).filter isStylePart).take 5)) : Int))
        ≤ (max_tokens : Int) := by
      rw [wordCount_pyJoin_space (((promptParts prompt).filter isStylePart).take 5)] at h2 ⊢
      push_cast
      linarith
    have hloop := contentLoop_bound max_tokens
      ((promptParts prompt).filter (fun p => !isStylePart p))
      ((max_tokens : Int)
        - (wordCount (pyJoin [' '] (((promptParts prompt).filter isStylePart).take 5)) : Int))
      (((promptParts prompt).filter isStylePart).take 5)
      hgood5 hgoodc hrem0 hsum0
    rw [wordCount_pyJoin_comma _ hloop.1]
    exact_mod_cast hloop.2

/-- Witness for C2 amended: the spec's style-preserving example shape —
a style segment plus over-long content at budget 5 compresses to exactly
5 tokens. -/
theorem c2_amended_witness :
    wordCount (optimize_prompt_for_clip "storybook, a b c d e f".toList 5) ≤ 5 :=
  c2_amended "storybook, a b c d e f".toList 5 (by decide) (by decide)

end StoryForge
